import Mathlib

set_option maxRecDepth 8192

/-!
Shallow embedding of `conjureup/models/provider.py`: the Field/Form validation
engine, the provider adapters (AWS, MAAS, Localhost/LXD, VSphere, ...) and the
schema registry, together with executable models of the fragments of the
Python standard library the module uses (`urllib.parse.urlparse`/`urljoin` as
of CPython 3.5/3.6, `pathlib.PurePosixPath` joining and `stem`, `str.split`,
and dotted-numeric version comparison for `pkg_resources.parse_version`).

External collaborators that are not part of the repository (the cloud
registry `get_cloud`, `utils.is_valid_hostname`, `ipaddress.ip_address`,
subprocess outcomes, the vSphere client) are passed in as explicit function
or outcome parameters, so every embedded operation is a pure function of its
inputs.
-/

/-! ### Generic character-list helpers (models of Python `str` operations) -/

/-- Model of Python `str.split(sep)` for a one-character separator, acting on
the character list of the string.  `''.split(c)` is `['']`, matching Python. -/
def splitChar (c : Char) : List Char → List (List Char)
  | [] => [[]]
  | x :: xs =>
    match splitChar c xs with
    | [] => [[]]
    | h :: t => if x = c then [] :: h :: t else (x :: h) :: t

/-- Model of Python `str.startswith`. -/
def strStartsWith (s p : String) : Bool := p.data.isPrefixOf s.data

/-- Helper for substring containment on character lists. -/
def containsRun : List Char → List Char → Bool
  | [], pat => pat.isEmpty
  | x :: t, pat => pat.isPrefixOf (x :: t) || containsRun t pat

/-- Model of the Python `in` substring test (`pat in s`). -/
def strContains (s pat : String) : Bool := containsRun s.data pat.data

/-- Model of Python `sep.join(parts)` for character lists. -/
def joinWith (sep : List Char) : List (List Char) → List Char
  | [] => []
  | [x] => x
  | x :: y :: ys => x ++ sep ++ joinWith sep (y :: ys)

/-- Code-point lexicographic comparison of character lists, the order Python
`sorted` uses on `str`. -/
def charListLe : List Char → List Char → Bool
  | [], _ => true
  | _ :: _, [] => false
  | a :: as, b :: bs =>
    if a.toNat < b.toNat then true
    else if b.toNat < a.toNat then false
    else charListLe as bs

/-- Code-point lexicographic `<=` on strings. -/
def strLeb (a b : String) : Bool := charListLe a.data b.data

/-- `strLeb` as a relation, for use with `List.insertionSort`. -/
def strLeRel (a b : String) : Prop := strLeb a b = true

instance : DecidableRel strLeRel :=
  fun a b => inferInstanceAs (Decidable (strLeb a b = true))

/-- Model of Python `sorted` on a list of strings. -/
def sortStrings (l : List String) : List String := List.insertionSort strLeRel l

/-- Model of Python `str.upper` (ASCII). -/
def strUpper (s : String) : String := String.mk (s.data.map Char.toUpper)

/-! ### Model of `urllib.parse` (CPython 3.5/3.6), restricted to the pieces
the MAAS endpoint validator uses: `urlparse` down to `(scheme, netloc, path)`
— including the `;params` split off the final path segment and the
`ValueError` raised on an unbalanced bracket in the netloc — and
`urljoin(base, "MAAS")`.

One simplification, immaterial to the validator's observable behaviour: the
historic port-number scheme guard of `urlsplit` is omitted (it can only
matter when the netloc is empty, in which case the validator fails either
way). -/

/-- Characters CPython allows in a URL scheme. -/
def schemeChar (c : Char) : Bool := c.isAlphanum || c = '+' || c = '-' || c = '.'

/-- The schemes whose URLs may carry `;parameters` on the last path segment
(CPython `uses_params`, 3.5/3.6). -/
def usesParams : List String :=
  ["", "ftp", "hdl", "prospero", "http", "imap", "https", "shttp", "rtsp",
   "rtspu", "sip", "sips", "mms", "sftp", "tel"]

/-- CPython `_splitparams`, restricted to the path component it returns:
drop everything from the first `;` of the final path segment (the whole
path when it contains no `/`); a `;` in an earlier segment is left alone. -/
def splitParamsPath (path : List Char) : List Char :=
  let finalSeg := (path.reverse.takeWhile (fun c => !(c = '/'))).reverse
  if finalSeg.any (fun c => c = ';') then
    path.take (path.length - finalSeg.length) ++
      finalSeg.takeWhile (fun c => !(c = ';'))
  else path

/-- Model of `urllib.parse.urlparse` (CPython 3.5/3.6), returning
`(scheme, netloc, path)` — or the `ValueError` CPython raises when the
netloc contains one of `[` / `]` without the other.  The scheme is the
lowercased prefix before the first `:` when that prefix is a wellformed
scheme, the netloc follows a leading `//` up to the next `/`, `?` or `#`,
and the path is the remainder up to the first `?` or `#`, with `;params`
dropped from its final segment for the schemes that use them. -/
def urlparse3 (s : String) : Except Unit (String × String × String) :=
  let l := s.data
  let pre := l.takeWhile (fun c => !(c = ':'))
  let sr :=
    if pre.length < l.length && !pre.isEmpty && (pre.headD ' ').isAlpha && pre.all schemeChar
    then (pre.map Char.toLower, l.drop (pre.length + 1))
    else (([] : List Char), l)
  let nr :=
    if sr.2.take 2 = ['/', '/'] then
      let nl := (sr.2.drop 2).takeWhile (fun c => !(c = '/' || c = '?' || c = '#'))
      (nl, (sr.2.drop 2).drop nl.length)
    else (([] : List Char), sr.2)
  if (nr.1.any (fun c => c = '[') && !nr.1.any (fun c => c = ']')) ||
     (nr.1.any (fun c => c = ']') && !nr.1.any (fun c => c = '[')) then
    .error ()
  else
    let scheme := String.mk sr.1
    let path0 := nr.2.takeWhile (fun c => !(c = '?' || c = '#'))
    let path := if usesParams.any (fun x => decide (x = scheme))
                then splitParamsPath path0 else path0
    .ok (scheme, String.mk nr.1, String.mk path)

/-- The schemes `urljoin` accepts relative references for (CPython
`uses_relative`). -/
def usesRelative : List String :=
  ["", "ftp", "http", "gopher", "nntp", "imap", "wais", "file", "https",
   "shttp", "mms", "prospero", "rtsp", "rtspu", "sftp", "svn", "svn+ssh",
   "ws", "wss"]

/-- The schemes that carry a network location (CPython `uses_netloc`). -/
def usesNetloc : List String :=
  ["", "ftp", "http", "gopher", "nntp", "telnet", "imap", "wais", "file",
   "mms", "https", "shttp", "snews", "prospero", "rtsp", "rtspu", "rsync",
   "svn", "svn+ssh", "sftp", "nfs", "git", "git+ssh", "ws", "wss"]

/-- CPython `urljoin`: drop empty segments strictly between the first and the
last one (`segments[1:-1] = filter(None, segments[1:-1])`). -/
def midFilter : List (List Char) → List (List Char)
  | [] => []
  | [x] => [x]
  | x :: y :: ys => if x.isEmpty then midFilter (y :: ys) else x :: midFilter (y :: ys)

/-- Keep the first segment, filter empties from the middle, keep the last. -/
def filterMiddle : List (List Char) → List (List Char)
  | [] => []
  | a :: rest => a :: midFilter rest

/-- One step of CPython `urljoin`'s RFC 3986 dot-segment resolution. -/
def resolveStep (acc : List (List Char)) (seg : List Char) : List (List Char) :=
  if seg = ['.', '.'] then acc.dropLast
  else if seg = ['.'] then acc
  else acc ++ [seg]

/-- The characters of the relative reference `"MAAS"`. -/
def maasSeg : List Char := ['M', 'A', 'A', 'S']

/-- CPython `urljoin` path merging for the relative reference `MAAS`: split
the base path, drop its final segment unless empty, append `MAAS`, filter
redundant empty middle segments, resolve dot segments, and rejoin. -/
def urljoinResolvedPath (bpath : List Char) : List Char :=
  let bparts0 := splitChar '/' bpath
  let bparts := if bparts0.getLast? = some [] then bparts0 else bparts0.dropLast
  let segments := filterMiddle (bparts ++ [maasSeg])
  joinWith ['/'] (segments.foldl resolveStep [])

/-- CPython `urlunsplit` for a URL with empty query and fragment: re-attach
the netloc (prefixing a `/` to a relative path) and the scheme. -/
def urlunsplitUrl (scheme netloc : String) (joined : List Char) : List Char :=
  let url0 := if joined.isEmpty then ['/'] else joined
  let url1 :=
    if !netloc.data.isEmpty ||
       (!scheme.data.isEmpty && usesNetloc.any (fun x => decide (x = scheme)) &&
        !(url0.take 2 = ['/', '/'])) then
      let u := if !url0.isEmpty && !(url0.take 1 = ['/']) then '/' :: url0 else url0
      '/' :: '/' :: (netloc.data ++ u)
    else url0
  if !scheme.data.isEmpty then scheme.data ++ ':' :: url1 else url1

/-- `urljoin(base, "MAAS")` given already-parsed base components: bail out
to the bare relative reference for non-relative schemes, otherwise merge
the paths and re-assemble the URL.  The validator's `http` branch joins
onto `url.geturl()`, which `urljoin` re-parses to exactly these components
(the reassembly round-trips: the stripped final segment contains no `;`
and the params no `/`), so that branch is this function applied to the
components of its own successful parse. -/
def urljoinFromParts (scheme netloc path : String) : String :=
  if !(usesRelative.any (fun x => decide (x = scheme))) then "MAAS"
  else String.mk (urlunsplitUrl scheme netloc (urljoinResolvedPath path.data))

/-- Model of `urllib.parse.urljoin(base, "MAAS")` (CPython 3.5/3.6): parse
the base — propagating the bracket `ValueError` — then join. -/
def urljoinMAAS (base : String) : Except Unit String :=
  match urlparse3 base with
  | .error e => .error e
  | .ok p => .ok (urljoinFromParts p.1 p.2.1 p.2.2)

/-! ### MAAS adapter: endpoint and API-key validators -/

/-- Result of a field validator plus the field value it leaves behind
(the validators rewrite `field.value` on some success paths). -/
structure EndpointResult where
  ok : Bool
  msg : Option String
  value : String
deriving DecidableEq

/-- Failure message of the `http`-prefixed branch when the URL has no
network location. -/
def maasEndpointWebMsg : String :=
  "Unable to determine the web address, please use the format of http://maas-server.com:5240/MAAS"

/-- Final fall-through failure message (the doubled space after "use"
reproduces the source text). -/
def maasEndpointFormatMsg : String :=
  "Unable to validate that this entry is the correct format. Please use  the format of http://maas-server.com:5240/MAAS"

/-- The `ip`/`port` pair of the last branch of `_has_correct_endpoint`:
`ip = endpoint.split(':')`, then `ip, port = ip` when there are exactly two
parts, else `ip = ip.pop()` (the final part) with the default port `5240`.
`_has_correct_endpoint` itself takes the repository-external predicates
`utils.is_valid_hostname` and "`ipaddress.ip_address` accepts" as
parameters and returns validity, the error message, and the field value
after the call (the success paths rewrite it, failure leaves it alone) —
or `.error` for an uncaught `ValueError` escaping the validator. -/
def maasIpPort (endpoint : String) : String × String :=
  match (splitChar ':' endpoint.data).map String.mk with
  | [a, b] => (a, b)
  | ps => ((ps.getLast?).getD "", "5240")

/-- `MAAS._has_correct_endpoint` proper, evaluating the branches in source
order: `http`-prefixed URL (where a bracket `ValueError` from `urlparse`
propagates uncaught out of the validator, modelled as `.error`), then
hostname (where a `ValueError` from `urljoin` on the built base would
equally propagate), then `ip[:port]` (whose whole body sits inside
`try/except ValueError`, so a join failure there falls through to the
final failure message), then failure. -/
def maasHasCorrectEndpoint (isValidHostname isIpAddress : String → Bool)
    (endpoint : String) : Except Unit EndpointResult :=
  if strStartsWith endpoint "http" then
    match urlparse3 endpoint with
    | .error e => .error e
    | .ok u =>
      if u.2.1 = "" then .ok ⟨false, some maasEndpointWebMsg, endpoint⟩
      else if strContains u.2.2 "MAAS" then .ok ⟨true, none, endpoint⟩
      else .ok ⟨true, none, urljoinFromParts u.1 u.2.1 u.2.2⟩
  else if isValidHostname endpoint then
    match urljoinMAAS ("http://" ++ endpoint ++ ":5240") with
    | .error e => .error e
    | .ok v => .ok ⟨true, none, v⟩
  else
    if isIpAddress (maasIpPort endpoint).1 then
      match urljoinMAAS
          ("http://" ++ (maasIpPort endpoint).1 ++ ":" ++ (maasIpPort endpoint).2) with
      | .error _ => .ok ⟨false, some maasEndpointFormatMsg, endpoint⟩
      | .ok v => .ok ⟨true, none, v⟩
    else .ok ⟨false, some maasEndpointFormatMsg, endpoint⟩

/-- The canonical endpoint shape the spec describes: `http://host:port/MAAS`
for some host and port text. -/
def maasCanonicalForm (s : String) : Prop :=
  ∃ host port : String, s = "http://" ++ host ++ ":" ++ port ++ "/MAAS"

/-- Whether a string ends with the five characters `/MAAS` — a consequence
of `maasCanonicalForm` usable to refute it by evaluation. -/
def endsWithSlashMAAS (s : String) : Bool :=
  ("/MAAS".data.reverse).isPrefixOf s.data.reverse

/-- Result of the MAAS API-key validator (no value rewrite there). -/
structure ApiKeyResult where
  ok : Bool
  msg : Option String
deriving DecidableEq

/-- Failure message of `MAAS._has_correct_api_key`. -/
def maasApiKeyMsg : String :=
  "Could not determine tokens, usually indicates an error with the format of the API KEY. That format should be \x27aaaaa:bbbbb:cccc\x27. Please visit your MAAS user preferences page to grab the correct API Key: http://<maas-server>:5240/MAAS/account/prefs/"

/-- `MAAS._has_correct_api_key`: the value (`None` modelled as `none`)
must split on `:` into exactly three parts. -/
def maasHasCorrectApiKey (value : Option String) : ApiKeyResult :=
  let key := splitChar ':' (value.getD "").data
  if !(key.length = 3) then ⟨false, some maasApiKeyMsg⟩ else ⟨true, none⟩

/-! ### Field validation engine (`Field.validate`) -/

/-- The value held by a field widget: text editors yield `None` or a string,
yes/no widgets a boolean. -/
inductive WidgetValue
  | wNone
  | wStr (s : String)
  | wBool (b : Bool)
deriving DecidableEq

/-- Python truthiness of a widget value (`not self.value`). -/
def WidgetValue.falsy : WidgetValue → Bool
  | .wNone => true
  | .wStr s => s.data.isEmpty
  | .wBool b => !b

/-- A `Field` as `validate()` sees it: the `required` flag, the widget's
current value, and the outcome the zero-argument custom validator would
return if invoked (`none` when the field has no validator).  The message
component is the one used when the outcome is a failure; on success the
source returns `None` and never reads it. -/
structure FieldModel where
  required : Bool
  value : WidgetValue
  validator : Option (Bool × String)

/-- Outcome of `Field.validate`: the boolean result, the error text left on
the field (it is cleared to `""` at entry), and whether the custom
validator was invoked. -/
structure ValidateOut where
  ok : Bool
  error : String
  validatorCalled : Bool
deriving DecidableEq

/-- The required-field message. -/
def requiredFieldMsg : String := "This field is required and cannot be empty."

/-- `Field.validate`. -/
def fieldValidate (f : FieldModel) : ValidateOut :=
  if f.required && f.value.falsy then ⟨false, requiredFieldMsg, false⟩
  else
    match f.validator with
    | some r => if !r.1 then ⟨false, r.2, true⟩ else ⟨true, "", true⟩
    | none => ⟨true, "", false⟩

/-! ### `BaseProvider.load` -/

/-- The fields of a cloud-registry entry that `load` reads:
`_cloud.get('endpoint', None)` and the keys of `_cloud.get('regions', {})`. -/
structure CloudInfo where
  endpoint : Option String
  regions : List String
deriving DecidableEq

/-- The provider attributes `load` touches. -/
structure ProviderState where
  cloud : Option String
  endpoint : Option String
  regions : List String
deriving DecidableEq

/-- The string `load` passes to `SchemaErrorUnknownCloud`. -/
def unknownCloudMsg (cloudName : String) : String :=
  "Unknown cloud: " ++ cloudName ++ ", not updating provider attributes"

/-- `SchemaErrorUnknownCloud.__init__` interpolates its argument into this
text. -/
def schemaErrorUnknownCloudText (arg : String) : String :=
  "Unable to find cloud for " ++ arg ++ ", you can double check that cloud exists by running `juju clouds`. Please see `juju help clouds` for more information."

/-- `BaseProvider.load`: on a registry hit set `cloud`, `endpoint` and the
sorted region keys; on a `LookupError` miss raise `SchemaErrorUnknownCloud`
(second component) and leave the state untouched. -/
def providerLoad (getCloud : String → Option CloudInfo) (cloudName : String)
    (s : ProviderState) : ProviderState × Option String :=
  match getCloud cloudName with
  | some c =>
    ({ cloud := some cloudName, endpoint := c.endpoint,
       regions := sortStrings c.regions }, none)
  | none => (s, some (schemaErrorUnknownCloudText (unknownCloudMsg cloudName)))

/-! ### `AWS.configure_tools` -/

/-- The credential record `CredentialManager.get_credential` returns. -/
structure AwsCredential where
  access_key : String
  secret_key : String
deriving DecidableEq

/-- One external process invocation: argument vector and scripted input. -/
structure ProcCall where
  argv : List String
  input : Option String
deriving DecidableEq

/-- `subprocess.CalledProcessError`, reduced to its captured stderr. -/
structure CalledProcessErr where
  stderr : String
deriving DecidableEq

/-- Observable outcome of `configure_tools`: the write invocations made, the
log lines emitted, and the re-raised error if any. -/
structure AwsConfigureOut where
  writes : List ProcCall
  logged : List String
  raised : Option CalledProcessErr
deriving DecidableEq

/-- The non-mutating profile-list check invocation. -/
def awsCheckCall (credential : String) : ProcCall :=
  ⟨["aws", "configure", "list", "--profile", credential], none⟩

/-- The credential-writing invocation with its scripted standard input. -/
def awsWriteCall (credential : String) (cred : AwsCredential) : ProcCall :=
  ⟨["aws", "configure", "--profile", credential],
   some (cred.access_key ++ "\n" ++ cred.secret_key ++ "\n\n\n")⟩

/-- `AWS.configure_tools`, as a function of the profile-list check's exit
status and of the write invocation's outcome (`none` = exit zero, `some e` =
`CalledProcessError e`, which `check=True` raises). -/
def awsConfigureTools (credential : String) (cred : AwsCredential)
    (checkRet : Int) (writeOutcome : Option CalledProcessErr) : AwsConfigureOut :=
  if checkRet ≠ 0 then
    match writeOutcome with
    | none => ⟨[awsWriteCall credential cred], [], none⟩
    | some e =>
      ⟨[awsWriteCall credential cred],
       ["Failed to configure AWS CLI profile: " ++ e.stderr], some e⟩
  else ⟨[], [], none⟩

/-! ### Localhost/LXD adapter -/

/-- Model of `str(PurePosixPath(s))` component splitting: empty and `.`
components vanish. -/
def posixParts (s : String) : List String :=
  ((splitChar '/' s.data).map String.mk).filter (fun p => !(p = "") && !(p = "."))

/-- Model of Python `'/'.join` over strings. -/
def strJoinSlash (parts : List String) : String :=
  String.mk (joinWith ['/'] (parts.map String.data))

/-- The request path `Localhost.query` builds: the segment itself when it
already starts with `/1.0`, else `str(Path('/1.0') / segment)` — which for a
relative segment prefixes `/1.0`, but for an absolute segment follows
`pathlib` and discards the `/1.0` anchor. -/
def lxdQueryUrl (segment : String) : String :=
  if strStartsWith segment "/1.0" then segment
  else
    let parts := posixParts segment
    if strStartsWith segment "/" then
      let root := if strStartsWith segment "//" && !(strStartsWith segment "///")
                  then "//" else "/"
      root ++ strJoinSlash parts
    else
      match parts with
      | [] => "/1.0"
      | _ => "/1.0/" ++ strJoinSlash parts

/-- The full argument vector `query` hands to the external tool. -/
def lxdQueryCmd (segment method : String) : List String :=
  ["lxc", "query", "--wait", "-X", strUpper method, lxdQueryUrl segment]

/-- The parsed JSON of one network, restricted to the keys
`get_networks` reads. -/
structure NetInfo where
  name : String
  type : String
deriving DecidableEq

/-- `OrderedDict` assignment `od[k] = v`: update in place when the key
exists (position preserved), else append. -/
def odInsert {α : Type} (od : List (String × α)) (k : String) (v : α) :
    List (String × α) :=
  if od.any (fun p => p.1 = k) then od.map (fun p => if p.1 = k then (k, v) else p)
  else od ++ [(k, v)]

/-- `OrderedDict.move_to_end(k, last=False)`: move the entry for `k` to the
front, all other entries keeping their relative order (identity when the
key is absent; the source only calls it right after inserting `k`). -/
def odMoveToFront {α : Type} (od : List (String × α)) (k : String) :
    List (String × α) :=
  match od.find? (fun p => p.1 = k) with
  | some e => e :: od.filter (fun p => !(p.1 = k))
  | none => od

/-- One iteration of the `get_networks`/`get_storage_pools` loops: skip the
item if `keyOf` yields nothing, otherwise insert it under its key and, when
the key is the distinguished `target`, move it to the front. -/
def mtfStep {α β : Type} (keyOf : β → Option (String × α)) (target : String)
    (od : List (String × α)) (b : β) : List (String × α) :=
  match keyOf b with
  | none => od
  | some kv =>
    let od' := odInsert od kv.1 kv.2
    if kv.1 = target then odMoveToFront od' target else od'

/-- The same loop without the move-to-front, used to state what the loop
computes. -/
def plainStep {α β : Type} (keyOf : β → Option (String × α))
    (od : List (String × α)) (b : β) : List (String × α) :=
  match keyOf b with
  | none => od
  | some kv => odInsert od kv.1 kv.2

/-- `get_networks` keeps only `bridge`-typed networks, keyed by name. -/
def netKeyOf (n : NetInfo) : Option (String × NetInfo) :=
  if n.type = "bridge" then some (n.name, n) else none

/-- `Localhost.get_networks`, as a function of the per-network query results
(`[query(net) for net in query('networks')]`, in list order). -/
def getNetworksModel (netInfos : List NetInfo) : List (String × NetInfo) :=
  netInfos.foldl (mtfStep netKeyOf "lxdbr0") []

/-- Strip trailing `/` characters (pathlib ignores them). -/
def dropTrailingSlashes (l : List Char) : List Char :=
  (l.reverse.dropWhile (fun c => c = '/')).reverse

/-- Model of `PurePosixPath(p).stem` for paths whose final component is a
plain name: the text after the last `/`, minus a final `.suffix` when the
last dot is neither the first nor the last character of the name. -/
def pathStem (p : String) : String :=
  let name := ((dropTrailingSlashes p.data).reverse.takeWhile (fun c => !(c = '/'))).reverse
  let ext := name.reverse.takeWhile (fun c => !(c = '.'))
  if ext.length < name.length && ext.length + 1 < name.length && 0 < ext.length
  then String.mk (name.take (name.length - ext.length - 1))
  else String.mk name

/-- `Localhost.get_storage_pools`, as a function of the pool path list
(`query('storage-pools')`) and of the per-pool query results. -/
def getStoragePoolsModel {α : Type} (queryPool : String → α)
    (pools : List String) : List (String × α) :=
  pools.foldl (mtfStep (fun p => some (pathStem p, queryPool p)) "default") []

/-- The ordered mapping the spec describes for networks: exactly the
bridge-typed entries, keyed by name, in query order. -/
def bridgeEntries (netInfos : List NetInfo) : List (String × NetInfo) :=
  (netInfos.filter (fun n => n.type = "bridge")).map (fun n => (n.name, n))

/-- The ordered mapping the spec describes for storage pools: every pool,
keyed by its path stem, in query order. -/
def poolEntries {α : Type} (queryPool : String → α) (pools : List String) :
    List (String × α) :=
  pools.map (fun p => (pathStem p, queryPool p))

/-- The failure modes of `Localhost.query`: a `CalledProcessError` wrapped
into `LocalhostError`, a JSON decode failure raised as
`LocalhostJSONError`, and a missing binary (`FileNotFoundError`)
propagated unchanged. -/
inductive LxdFailure
  | localhostError (detail : String)
  | localhostJSONError
  | fileNotFound (detail : String)
deriving DecidableEq

/-- `out['environment']` restricted to the key read. -/
structure LxdEnvironment where
  server_version : String
deriving DecidableEq

/-- The parsed response of a bare `query()`. -/
structure LxdServerInfo where
  environment : LxdEnvironment
deriving DecidableEq

/-- Release components of a dotted numeric version, the fragment of
`pkg_resources.parse_version` the adapter relies on. -/
def parseVer (s : String) : List Nat :=
  (splitChar '.' s.data).map (fun d => d.foldl (fun n c => n * 10 + (c.toNat - 48)) 0)

/-- `<=` on parsed versions: lexicographic with implicit zero padding
(`2.17 == 2.17.0`). -/
def verLe : List Nat → List Nat → Bool
  | [], _ => true
  | a :: as, [] => if 0 < a then false else verLe as []
  | a :: as, b :: bs => if a < b then true else if b < a then false else verLe as bs

/-- `Localhost.minimum_support_version = parse_version('2.17')`. -/
def minimumSupportVer : List Nat := parseVer "2.17"

/-- `Localhost.is_server_compatible`, as a function of the outcome of the
bare `query()`: `LocalhostError` is swallowed into `False`, every other
failure propagates, and on success the reported server version is compared
`<=` against the minimum-support constant (the literal comparison of the
source, reproduced as-is). -/
def isServerCompatible (q : Except LxdFailure LxdServerInfo) :
    Except LxdFailure Bool :=
  match q with
  | .error (.localhostError _) => .ok false
  | .error e => .error e
  | .ok out => .ok (verLe (parseVer out.environment.server_version) minimumSupportVer)

/-! ### VSphere adapter: login and memoized datacenter discovery -/

/-- Failures the VSphere flow can raise: the client's invalid-login error
(re-raised unchanged by `login`) and a discovery failure from the
off-thread `get_datacenters` call. -/
inductive VsFailure
  | invalidLogin
  | discoveryError
deriving DecidableEq

/-- The VSphere provider state the two coroutines touch. -/
structure VsState where
  authenticated : Bool
  clientSet : Bool
  datacenters : Option (List String)
deriving DecidableEq

/-- Outcome of `VSphere.login`: the new state, the raised failure if any,
and how many times `client.login` ran. -/
structure VsLoginOut where
  state : VsState
  failed : Option VsFailure
  loginCalls : Nat
deriving DecidableEq

/-- `VSphere.login`: a no-op when already authenticated; otherwise build the
client and run `client.login` (outcome supplied as a parameter), marking
`authenticated` only on success. -/
def vsLogin (loginOutcome : Option VsFailure) (s : VsState) : VsLoginOut :=
  if s.authenticated then ⟨s, none, 0⟩
  else
    match loginOutcome with
    | none => ⟨{ s with clientSet := true, authenticated := true }, none, 1⟩
    | some e => ⟨{ s with clientSet := true }, some e, 1⟩

/-- Outcome of `VSphere.get_datacenters`: the new state, the returned list
or raised failure, and how many discovery fetches and login attempts ran. -/
structure VsDcOut where
  state : VsState
  result : Except VsFailure (List String)
  fetchCalls : Nat
  loginCalls : Nat

/-- `VSphere.get_datacenters`: return the cached list when present;
otherwise log in when not yet authenticated (propagating a login failure
without fetching), then run the discovery fetch (outcome supplied as a
parameter) and cache its result. -/
def vsGetDatacenters (loginOutcome : Option VsFailure)
    (fetchOutcome : Except VsFailure (List String)) (s : VsState) : VsDcOut :=
  match s.datacenters with
  | some dcs => ⟨s, .ok dcs, 0, 0⟩
  | none =>
    let lo := if !s.authenticated then vsLogin loginOutcome s else ⟨s, none, 0⟩
    match lo.failed with
    | some e => ⟨lo.state, .error e, 0, lo.loginCalls⟩
    | none =>
      match fetchOutcome with
      | .ok dcs => ⟨{ lo.state with datacenters := some dcs }, .ok dcs, 1, lo.loginCalls⟩
      | .error e => ⟨lo.state, .error e, 1, lo.loginCalls⟩

/-! ### Schema registry and `load_schema` -/

/-- The widget kinds the field declarations use. -/
inductive WidgetKind
  | stringEditor
  | stringEditorDefault (default : String)
  | passwordEditor
  | yesNo
deriving DecidableEq

/-- The two bound validator methods MAAS fields reference. -/
inductive MaasValidatorRef
  | endpointV
  | apiKeyV
deriving DecidableEq

/-- A `Field(...)` declaration as written in an adapter constructor. -/
structure FieldDecl where
  label : String
  widget : WidgetKind
  key : String
  storable : Bool
  required : Bool
  validator : Option MaasValidatorRef
deriving DecidableEq

/-- The statically declared part of an adapter: auth type, cloud type, and
the form's field declarations (`none` for Localhost, which builds no form). -/
structure ProviderDesc where
  authType : Option String
  cloudType : Option String
  form : Option (List FieldDecl)
deriving DecidableEq

/-- `consts.cloud_types` values used by the adapters. -/
def cloudTypeAWS : String := "ec2"
def cloudTypeMAAS : String := "maas"
def cloudTypeAzure : String := "azure"
def cloudTypeGCE : String := "gce"
def cloudTypeCloudSigma : String := "cloudsigma"
def cloudTypeJoyent : String := "joyent"
def cloudTypeOpenStack : String := "openstack"
def cloudTypeVSphere : String := "vsphere"
def cloudTypeOracle : String := "oracle"
def cloudTypeLocalhost : String := "localhost"

/-- `AWS.__init__`. -/
def awsDesc : ProviderDesc :=
  ⟨some "access-key", some cloudTypeAWS, some
    [⟨"AWS Access Key", .stringEditor, "access-key", true, true, none⟩,
     ⟨"AWS Secret Key", .stringEditor, "secret-key", true, true, none⟩]⟩

/-- `MAAS.__init__`. -/
def maasDesc : ProviderDesc :=
  ⟨some "oauth1", some cloudTypeMAAS, some
    [⟨"api endpoint (http://example.com:5240/MAAS)", .stringEditor, "endpoint",
      false, true, some .endpointV⟩,
     ⟨"api key", .stringEditor, "maas-oauth", true, true, some .apiKeyV⟩]⟩

/-- `Azure.__init__` (the `appnlication-id` key reproduces the source). -/
def azureDesc : ProviderDesc :=
  ⟨some "service-principal-secret", some cloudTypeAzure, some
    [⟨"application id", .stringEditor, "appnlication-id", true, true, none⟩,
     ⟨"subscription id", .stringEditor, "subscription-id", true, true, none⟩,
     ⟨"application password", .passwordEditor, "application-password", true, true, none⟩]⟩

/-- `Google.__init__`. -/
def googleDesc : ProviderDesc :=
  ⟨some "oauth2", some cloudTypeGCE, some
    [⟨"private key", .stringEditor, "private-key", true, true, none⟩,
     ⟨"client id", .stringEditor, "client-id", true, true, none⟩,
     ⟨"client email", .stringEditor, "client-email", true, true, none⟩,
     ⟨"project id", .stringEditor, "project-id", true, true, none⟩]⟩

/-- `CloudSigma.__init__` (its password field is a plain `StringEditor`). -/
def cloudSigmaDesc : ProviderDesc :=
  ⟨some "userpass", some cloudTypeCloudSigma, some
    [⟨"username", .stringEditor, "username", true, true, none⟩,
     ⟨"password", .stringEditor, "password", true, true, none⟩]⟩

/-- `Joyent.__init__`. -/
def joyentDesc : ProviderDesc :=
  ⟨some "userpass", some cloudTypeJoyent, some
    [⟨"sdc user", .stringEditor, "sdc-user", true, true, none⟩,
     ⟨"sdc key id", .stringEditor, "sdc-key-id", true, true, none⟩,
     ⟨"private key", .stringEditor, "private-key", true, true, none⟩,
     ⟨"algorithm", .stringEditorDefault "rsa-sha256", "algorithm", true, true, none⟩]⟩

/-- `OpenStack.__init__` — the adapter both `openstack` and `rackspace`
registry identifiers construct. -/
def openStackDesc : ProviderDesc :=
  ⟨some "userpass", some cloudTypeOpenStack, some
    [⟨"username", .stringEditor, "username", true, true, none⟩,
     ⟨"password", .passwordEditor, "password", true, true, none⟩,
     ⟨"domain name", .stringEditor, "domain-name", true, true, none⟩,
     ⟨"project domain name", .stringEditor, "project-domain-name", true, true, none⟩,
     ⟨"access key", .stringEditor, "access-key", true, true, none⟩,
     ⟨"secret key", .stringEditor, "secret-key", true, true, none⟩]⟩

/-- `VSphere.__init__` (form part). -/
def vsphereDesc : ProviderDesc :=
  ⟨some "userpass", some cloudTypeVSphere, some
    [⟨"api endpoint", .stringEditor, "endpoint", false, true, none⟩,
     ⟨"user", .stringEditor, "user", true, true, none⟩,
     ⟨"password", .passwordEditor, "password", true, true, none⟩]⟩

/-- `Oracle.__init__`. -/
def oracleDesc : ProviderDesc :=
  ⟨some "userpass", some cloudTypeOracle, some
    [⟨"identity domain", .stringEditor, "identity-domain", true, true, none⟩,
     ⟨"username or e-mail", .stringEditor, "username", true, true, none⟩,
     ⟨"password", .passwordEditor, "password", true, true, none⟩]⟩

/-- `Localhost.__init__` builds no form. -/
def localhostDesc : ProviderDesc :=
  ⟨some "interactive", some cloudTypeLocalhost, none⟩

/-- The adapter constructors the registry can reference. -/
inductive SchemaCtor
  | awsC | maasC | azureC | googleC | cloudSigmaC | joyentC
  | openStackC | vsphereC | oracleC | localhostC
deriving DecidableEq

/-- Zero-argument construction of an adapter from its constructor. -/
def constructProvider : SchemaCtor → ProviderDesc
  | .awsC => awsDesc
  | .maasC => maasDesc
  | .azureC => azureDesc
  | .googleC => googleDesc
  | .cloudSigmaC => cloudSigmaDesc
  | .joyentC => joyentDesc
  | .openStackC => openStackDesc
  | .vsphereC => vsphereDesc
  | .oracleC => oracleDesc
  | .localhostC => localhostDesc

/-- The `Schema` list: ordered `(identifier, constructor)` pairs;
`rackspace` aliases the OpenStack constructor and `lxd` the Localhost one. -/
def schemaRegistry : List (String × SchemaCtor) :=
  [("ec2", .awsC), ("maas", .maasC), ("azure", .azureC), ("gce", .googleC),
   ("cloudsigma", .cloudSigmaC), ("joyent", .joyentC),
   ("openstack", .openStackC), ("rackspace", .openStackC),
   ("vsphere", .vsphereC), ("oracle", .oracleC),
   ("localhost", .localhostC), ("lxd", .localhostC)]

/-- `SchemaError.__init__` text. -/
def schemaErrorText (cloud : String) : String :=
  "Unable to find credentials for " ++ cloud ++ ", you can double check what credentials you do have available by running `juju credentials`. Please see `juju help add-credential` for more information."

/-- Linear scan of the registry in declaration order, first match wins. -/
def loadSchemaAux : List (String × SchemaCtor) → String → Except String ProviderDesc
  | [], cloud => .error (schemaErrorText cloud)
  | s :: rest, cloud =>
    if cloud = s.1 then .ok (constructProvider s.2) else loadSchemaAux rest cloud

/-- `load_schema`. -/
def loadSchema (cloud : String) : Except String ProviderDesc :=
  loadSchemaAux schemaRegistry cloud

/-! ### Helper lemmas -/

theorem strMk_append (a b : List Char) :
    String.mk a ++ String.mk b = String.mk (a ++ b) := rfl

theorem isPrefixOf_append_right (p a b : List Char) (h : p.isPrefixOf a = true) :
    p.isPrefixOf (a ++ b) = true := by
  induction p generalizing a with
  | nil => simp [List.isPrefixOf]
  | cons c cs ih =>
    cases a with
    | nil => simp [List.isPrefixOf] at h
    | cons d ds =>
      simp only [List.cons_append]
      simp only [List.isPrefixOf, Bool.and_eq_true] at h ⊢
      exact ⟨h.1, ih ds h.2⟩

theorem isPrefixOf_trans (a b c : List Char) (h1 : a.isPrefixOf b = true)
    (h2 : b.isPrefixOf c = true) : a.isPrefixOf c = true := by
  induction a generalizing b c with
  | nil => simp [List.isPrefixOf]
  | cons x xs ih =>
    cases b with
    | nil => simp [List.isPrefixOf] at h1
    | cons y ys =>
      cases c with
      | nil => simp [List.isPrefixOf] at h2
      | cons z zs =>
        simp only [List.isPrefixOf, Bool.and_eq_true] at h1 h2 ⊢
        refine ⟨?_, ih ys zs h1.2 h2.2⟩
        have e1 := h1.1; have e2 := h2.1
        rw [beq_iff_eq] at e1 e2 ⊢
        exact e1.trans e2

theorem charListLe_total (a : List Char) :
    ∀ b, charListLe a b = true ∨ charListLe b a = true := by
  induction a with
  | nil => intro b; left; rfl
  | cons x xs ih =>
    intro b
    cases b with
    | nil => right; rfl
    | cons y ys =>
      by_cases h1 : x.toNat < y.toNat
      · left; simp [charListLe, h1]
      · by_cases h2 : y.toNat < x.toNat
        · right; simp [charListLe, h2]
        · rcases ih ys with h | h
          · left; simp [charListLe, h1, h2, h]
          · right; simp [charListLe, h1, h2, h]

theorem charListLe_cases (x y : Char) (xs ys : List Char)
    (h : charListLe (x :: xs) (y :: ys) = true) :
    x.toNat < y.toNat ∨ (x.toNat = y.toNat ∧ charListLe xs ys = true) := by
  by_cases h1 : x.toNat < y.toNat
  · exact Or.inl h1
  · by_cases h2 : y.toNat < x.toNat
    · simp [charListLe, h1, h2] at h
    · exact Or.inr ⟨by omega, by simpa [charListLe, h1, h2] using h⟩

theorem charListLe_trans (a : List Char) :
    ∀ b c, charListLe a b = true → charListLe b c = true → charListLe a c = true := by
  induction a with
  | nil => intro b c _ _; rfl
  | cons x xs ih =>
    intro b c hab hbc
    cases b with
    | nil => simp [charListLe] at hab
    | cons y ys =>
      cases c with
      | nil => simp [charListLe] at hbc
      | cons z zs =>
        rcases charListLe_cases x y xs ys hab with hxy | ⟨hxy, hxsys⟩ <;>
          rcases charListLe_cases y z ys zs hbc with hyz | ⟨hyz, hyszs⟩
        · simp [charListLe, show x.toNat < z.toNat by omega]
        · simp [charListLe, show x.toNat < z.toNat by omega]
        · simp [charListLe, show x.toNat < z.toNat by omega]
        · have hxz : ¬ x.toNat < z.toNat := by omega
          have hzx : ¬ z.toNat < x.toNat := by omega
          simp [charListLe, hxz, hzx, ih ys zs hxsys hyszs]

theorem strLeRel_total (a b : String) : strLeRel a b ∨ strLeRel b a :=
  charListLe_total a.data b.data

theorem strLeRel_trans (a b c : String) (h1 : strLeRel a b) (h2 : strLeRel b c) :
    strLeRel a c :=
  charListLe_trans a.data b.data c.data h1 h2

/-! ### Claim theorems: registry, API key, AWS, Field, version check,
VSphere memoization, load -/

/-- C9: `load_schema("rackspace")` and `load_schema("openstack")` construct
adapters of the same type with identical auth type, cloud type and field
sets — the two registry identifiers alias the one OpenStack constructor. -/
theorem schema_alias_spec :
    loadSchema "rackspace" = loadSchema "openstack" ∧
    loadSchema "openstack" = .ok openStackDesc ∧
    (schemaRegistry.find? (fun e => decide ("rackspace" = e.1))).map Prod.snd =
      some SchemaCtor.openStackC ∧
    (schemaRegistry.find? (fun e => decide ("openstack" = e.1))).map Prod.snd =
      some SchemaCtor.openStackC :=
  ⟨rfl, rfl, by decide, by decide⟩

/-- C8: the MAAS API-key validator succeeds exactly when the value splits
into three colon-separated segments; `a:b:c` passes, while `a:b`,
`a:b:c:d` and the empty string fail with the format-hint message. -/
theorem maas_api_key_spec :
    (∀ v : Option String,
      (maasHasCorrectApiKey v).ok = true ↔
        (splitChar ':' (v.getD "").data).length = 3) ∧
    maasHasCorrectApiKey (some "a:b:c") = ⟨true, none⟩ ∧
    maasHasCorrectApiKey (some "a:b") = ⟨false, some maasApiKeyMsg⟩ ∧
    maasHasCorrectApiKey (some "a:b:c:d") = ⟨false, some maasApiKeyMsg⟩ ∧
    maasHasCorrectApiKey (some "") = ⟨false, some maasApiKeyMsg⟩ := by
  refine ⟨?_, by decide, by decide, by decide, by decide⟩
  intro v
  by_cases h : (splitChar ':' (v.getD "").data).length = 3 <;>
    simp [maasHasCorrectApiKey, h]

theorem maas_api_key_spec_witness :
    (maasHasCorrectApiKey (some "x:y:z")).ok = true :=
  (maas_api_key_spec.1 (some "x:y:z")).mpr (by decide)

/-- C4: `AWS.configure_tools` writes nothing when the profile-list check
exits zero; otherwise it performs exactly one `aws configure --profile`
write fed the two key lines plus two blank lines, and a failing write is
logged with its stderr and re-raised. -/
theorem aws_configure_tools_spec :
    ∀ (credential : String) (cred : AwsCredential) (checkRet : Int)
      (w : Option CalledProcessErr),
      (checkRet = 0 → awsConfigureTools credential cred checkRet w = ⟨[], [], none⟩) ∧
      ((awsConfigureTools credential cred checkRet w).writes =
        if checkRet = 0 then [] else
          [⟨["aws", "configure", "--profile", credential],
            some (cred.access_key ++ "\n" ++ cred.secret_key ++ "\n\n\n")⟩]) ∧
      (checkRet ≠ 0 → w = none →
        awsConfigureTools credential cred checkRet w =
          ⟨[awsWriteCall credential cred], [], none⟩) ∧
      (∀ e, checkRet ≠ 0 → w = some e →
        awsConfigureTools credential cred checkRet w =
          ⟨[awsWriteCall credential cred],
           ["Failed to configure AWS CLI profile: " ++ e.stderr], some e⟩) := by
  intro credential cred checkRet w
  by_cases hc : checkRet = 0
  · refine ⟨fun _ => by simp [awsConfigureTools, hc], by simp [awsConfigureTools, hc],
      fun h _ => absurd hc h, fun e h _ => absurd hc h⟩
  · cases w with
    | none =>
      refine ⟨fun h => absurd h hc, ?_, fun _ _ => by simp [awsConfigureTools, hc],
        fun e _ he => by simp at he⟩
      simp [awsConfigureTools, hc, awsWriteCall]
    | some e0 =>
      refine ⟨fun h => absurd h hc, ?_, fun _ he => by simp at he,
        fun e _ he => ?_⟩
      · simp [awsConfigureTools, hc, awsWriteCall]
      · cases he; simp [awsConfigureTools, hc]

theorem aws_configure_tools_spec_witness :
    awsConfigureTools "prof" ⟨"AK", "SK"⟩ 0 none = ⟨[], [], none⟩ ∧
    awsConfigureTools "prof" ⟨"AK", "SK"⟩ 1 none =
      ⟨[awsWriteCall "prof" ⟨"AK", "SK"⟩], [], none⟩ ∧
    awsConfigureTools "prof" ⟨"AK", "SK"⟩ 1 (some ⟨"denied"⟩) =
      ⟨[awsWriteCall "prof" ⟨"AK", "SK"⟩],
       ["Failed to configure AWS CLI profile: " ++ "denied"], some ⟨"denied"⟩⟩ :=
  ⟨(aws_configure_tools_spec "prof" ⟨"AK", "SK"⟩ 0 none).1 rfl,
   (aws_configure_tools_spec "prof" ⟨"AK", "SK"⟩ 1 none).2.2.1 (by decide) rfl,
   (aws_configure_tools_spec "prof" ⟨"AK", "SK"⟩ 1 (some ⟨"denied"⟩)).2.2.2
     ⟨"denied"⟩ (by decide) rfl⟩

/-- C6: `Field.validate` clears the error, fails with the required-field
message (without invoking the custom validator) when a required value is
falsy, and otherwise defers to the custom validator when present, failing
with its message, or succeeds. -/
theorem field_validate_spec :
    ∀ f : FieldModel,
      (f.required = true → f.value.falsy = true →
        fieldValidate f = ⟨false, requiredFieldMsg, false⟩) ∧
      ((f.required && f.value.falsy) = false → f.validator = none →
        fieldValidate f = ⟨true, "", false⟩) ∧
      (∀ m, (f.required && f.value.falsy) = false → f.validator = some (false, m) →
        fieldValidate f = ⟨false, m, true⟩) ∧
      (∀ m, (f.required && f.value.falsy) = false → f.validator = some (true, m) →
        fieldValidate f = ⟨true, "", true⟩) := by
  intro f
  refine ⟨fun h1 h2 => ?_, fun h hv => ?_, fun m h hv => ?_, fun m h hv => ?_⟩ <;>
    simp [fieldValidate, *]

theorem field_validate_spec_witness :
    fieldValidate ⟨true, .wStr "", some (false, "boom")⟩ = ⟨false, requiredFieldMsg, false⟩ ∧
    fieldValidate ⟨false, .wNone, some (false, "custom failure")⟩ = ⟨false, "custom failure", true⟩ ∧
    fieldValidate ⟨false, .wNone, none⟩ = ⟨true, "", false⟩ :=
  ⟨(field_validate_spec _).1 rfl rfl,
   (field_validate_spec _).2.2.1 "custom failure" rfl rfl,
   (field_validate_spec _).2.1 rfl rfl⟩

/-- C10: `is_server_compatible` turns a `LocalhostError` into `False`,
propagates `LocalhostJSONError` and `FileNotFoundError` unchanged, and on
success returns whether the reported version is `<=` the minimum-support
constant `2.17`. -/
theorem lxd_server_compatible_spec :
    ∀ q : Except LxdFailure LxdServerInfo,
      (∀ d, q = .error (.localhostError d) → isServerCompatible q = .ok false) ∧
      (q = .error .localhostJSONError →
        isServerCompatible q = .error .localhostJSONError) ∧
      (∀ d, q = .error (.fileNotFound d) →
        isServerCompatible q = .error (.fileNotFound d)) ∧
      (∀ out, q = .ok out →
        isServerCompatible q =
          .ok (verLe (parseVer out.environment.server_version) (parseVer "2.17"))) := by
  intro q
  refine ⟨fun d h => ?_, fun h => ?_, fun d h => ?_, fun out h => ?_⟩ <;> subst h <;> rfl

theorem lxd_server_compatible_spec_witness :
    isServerCompatible (.ok ⟨⟨"2.16"⟩⟩) = .ok true ∧
    isServerCompatible (.error (.localhostError "exit 1")) = .ok false ∧
    isServerCompatible (.error .localhostJSONError) = .error .localhostJSONError := by
  refine ⟨?_, (lxd_server_compatible_spec _).1 "exit 1" rfl,
    (lxd_server_compatible_spec _).2.1 rfl⟩
  have h := (lxd_server_compatible_spec (.ok ⟨⟨"2.16"⟩⟩)).2.2.2 ⟨⟨"2.16"⟩⟩ rfl
  have h2 : verLe (parseVer "2.16") (parseVer "2.17") = true := by decide
  rw [h, h2]

/-- C5: `get_datacenters` memoizes: a call that returns a list caches it,
performs at most one discovery fetch, and any later call returns the cached
list with zero fetches and zero logins, leaving the state unchanged. -/
theorem vsphere_get_datacenters_memoized :
    ∀ (lo1 lo2 : Option VsFailure) (fo1 fo2 : Except VsFailure (List String))
      (s : VsState) (dcs : List String),
      (vsGetDatacenters lo1 fo1 s).result = .ok dcs →
      (vsGetDatacenters lo1 fo1 s).state.datacenters = some dcs ∧
      (vsGetDatacenters lo1 fo1 s).fetchCalls ≤ 1 ∧
      vsGetDatacenters lo2 fo2 (vsGetDatacenters lo1 fo1 s).state =
        ⟨(vsGetDatacenters lo1 fo1 s).state, .ok dcs, 0, 0⟩ := by
  intro lo1 lo2 fo1 fo2 s dcs h
  cases hd : s.datacenters with
  | some d =>
    have e1 : vsGetDatacenters lo1 fo1 s = ⟨s, .ok d, 0, 0⟩ := by
      simp [vsGetDatacenters, hd]
    rw [e1] at h
    obtain rfl : d = dcs := by simpa using h
    rw [e1]
    refine ⟨hd, by simp, ?_⟩
    simp [vsGetDatacenters, hd]
  | none =>
    cases ha : s.authenticated with
    | true =>
      cases fo1 with
      | ok l =>
        have e1 : vsGetDatacenters lo1 (.ok l) s =
            ⟨{ s with datacenters := some l }, .ok l, 1, 0⟩ := by
          simp [vsGetDatacenters, hd, ha]
        rw [e1] at h
        obtain rfl : l = dcs := by simpa using h
        rw [e1]
        refine ⟨by simp, by simp, ?_⟩
        simp [vsGetDatacenters]
      | error e => simp [vsGetDatacenters, hd, ha] at h
    | false =>
      cases lo1 with
      | some e => simp [vsGetDatacenters, vsLogin, hd, ha] at h
      | none =>
        cases fo1 with
        | ok l =>
          have e1 : vsGetDatacenters none (.ok l) s =
              ⟨⟨true, true, some l⟩, .ok l, 1, 1⟩ := by
            simp [vsGetDatacenters, vsLogin, hd, ha]
          rw [e1] at h
          obtain rfl : l = dcs := by simpa using h
          rw [e1]
          refine ⟨by simp, by simp, ?_⟩
          simp [vsGetDatacenters]
        | error e => simp [vsGetDatacenters, vsLogin, hd, ha] at h

theorem vsphere_get_datacenters_memoized_witness :
    (vsGetDatacenters none (.ok ["dc1", "dc2"]) ⟨false, false, none⟩).result =
      .ok ["dc1", "dc2"] ∧
    vsGetDatacenters (some .invalidLogin) (.error .discoveryError)
        (vsGetDatacenters none (.ok ["dc1", "dc2"]) ⟨false, false, none⟩).state =
      ⟨(vsGetDatacenters none (.ok ["dc1", "dc2"]) ⟨false, false, none⟩).state,
       .ok ["dc1", "dc2"], 0, 0⟩ :=
  ⟨rfl,
   (vsphere_get_datacenters_memoized none (some .invalidLogin) (.ok ["dc1", "dc2"])
     (.error .discoveryError) ⟨false, false, none⟩ ["dc1", "dc2"] rfl).2.2⟩

/-- C7: `BaseProvider.load` on a registry hit sets `cloud`, `endpoint` and
the sorted region keys; on a miss it raises the unknown-cloud condition and
leaves the provider state unchanged. -/
theorem provider_load_spec :
    ∀ (getCloud : String → Option CloudInfo) (cloudName : String) (s : ProviderState),
      (∀ info, getCloud cloudName = some info →
        providerLoad getCloud cloudName s =
          ({ cloud := some cloudName, endpoint := info.endpoint,
             regions := sortStrings info.regions }, none) ∧
        (sortStrings info.regions).Pairwise strLeRel ∧
        (sortStrings info.regions).Perm info.regions) ∧
      (getCloud cloudName = none →
        providerLoad getCloud cloudName s =
          (s, some (schemaErrorUnknownCloudText (unknownCloudMsg cloudName)))) := by
  intro g n s
  constructor
  · intro info h
    letI : IsTotal String strLeRel := ⟨strLeRel_total⟩
    letI : IsTrans String strLeRel := ⟨fun a b c => strLeRel_trans a b c⟩
    refine ⟨by simp [providerLoad, h], ?_, ?_⟩
    · simpa [sortStrings, List.Sorted] using
        List.sorted_insertionSort strLeRel info.regions
    · simpa [sortStrings] using List.perm_insertionSort strLeRel info.regions
  · intro h
    simp [providerLoad, h]

theorem provider_load_spec_witness :
    providerLoad
        (fun n => if n = "mymaas" then some ⟨some "http://m:5240/MAAS", ["b", "a"]⟩ else none)
        "mymaas" ⟨none, none, []⟩ =
      ({ cloud := some "mymaas", endpoint := some "http://m:5240/MAAS",
         regions := sortStrings ["b", "a"] }, none) ∧
    providerLoad
        (fun n => if n = "mymaas" then some ⟨some "http://m:5240/MAAS", ["b", "a"]⟩ else none)
        "nope" ⟨none, none, []⟩ =
      (⟨none, none, []⟩, some (schemaErrorUnknownCloudText (unknownCloudMsg "nope"))) :=
  ⟨((provider_load_spec _ "mymaas" ⟨none, none, []⟩).1 ⟨some "http://m:5240/MAAS", ["b", "a"]⟩ rfl).1,
   (provider_load_spec _ "nope" ⟨none, none, []⟩).2 rfl⟩

/-! ### C3: the LXD query request path -/

theorem strStartsWith_mk_append (p : String) (a b : List Char)
    (h : p.data.isPrefixOf a = true) :
    strStartsWith (String.mk (a ++ b)) p = true :=
  isPrefixOf_append_right p.data a b h

/-- C3 counterexample: for the segment `/networks` the construction
`str(Path('/1.0') / segment)` discards the `/1.0` anchor, so the request
path is `/networks`, which does not begin with `/1.0` and is not the
segment prefixed with `/1.0` — refuting the claim that the path always
begins with `/1.0`. -/
theorem lxd_query_path_counterexample :
    lxdQueryUrl "/networks" = "/networks" ∧
    strStartsWith (lxdQueryUrl "/networks") "/1.0" = false ∧
    lxdQueryCmd "/networks" "get" =
      ["lxc", "query", "--wait", "-X", "GET", "/networks"] := by
  refine ⟨by decide, by decide, by decide⟩

/-- C3 amended: the request path is the segment itself when it already
starts with `/1.0`; for a relative segment it is the segment joined under
the `/1.0` prefix (so it begins with `/1.0`); but a segment that is an
absolute path not starting with `/1.0` replaces the prefix entirely,
following `pathlib` join semantics. -/
theorem lxd_query_path_amended :
    ∀ segment : String,
      (strStartsWith segment "/1.0" = true → lxdQueryUrl segment = segment) ∧
      (strStartsWith segment "/" = false →
        strStartsWith (lxdQueryUrl segment) "/1.0" = true) ∧
      (strStartsWith segment "/" = true → strStartsWith segment "/1.0" = false →
        lxdQueryUrl segment =
          (if strStartsWith segment "//" && !(strStartsWith segment "///")
           then "//" else "/") ++ strJoinSlash (posixParts segment)) := by
  intro segment
  refine ⟨fun h => ?_, fun h => ?_, fun h1 h2 => ?_⟩
  · simp [lxdQueryUrl, h]
  · have h10 : strStartsWith segment "/1.0" = false := by
      by_contra hc
      rw [Bool.not_eq_false] at hc
      have := isPrefixOf_trans "/".data "/1.0".data segment.data (by decide) hc
      rw [strStartsWith] at h
      simp [this] at h
    rw [lxdQueryUrl]
    simp only [h10, Bool.false_eq_true, if_false, h]
    cases hp : posixParts segment with
    | nil => decide
    | cons a as =>
      show strStartsWith ("/1.0/" ++ strJoinSlash (a :: as)) "/1.0" = true
      have : ("/1.0/" ++ strJoinSlash (a :: as)) =
          String.mk ("/1.0/".data ++ (strJoinSlash (a :: as)).data) := by
        rw [← strMk_append]
      rw [this]
      exact strStartsWith_mk_append _ _ _ (by decide)
  · rw [lxdQueryUrl]
    simp only [h2, Bool.false_eq_true, if_false, h1, if_true]

theorem lxd_query_path_amended_witness :
    lxdQueryUrl "/1.0/networks/lxdbr0" = "/1.0/networks/lxdbr0" ∧
    strStartsWith (lxdQueryUrl "networks") "/1.0" = true ∧
    lxdQueryUrl "/networks" =
      (if strStartsWith "/networks" "//" && !(strStartsWith "/networks" "///")
       then "//" else "/") ++ strJoinSlash (posixParts "/networks") :=
  ⟨(lxd_query_path_amended "/1.0/networks/lxdbr0").1 (by decide),
   (lxd_query_path_amended "networks").2.1 (by decide),
   (lxd_query_path_amended "/networks").2.2 (by decide) (by decide)⟩

/-! ### C1: the MAAS endpoint validator normalizes, with one exception -/

theorem midFilter_ends (m : List Char) :
    ∀ xs : List (List Char), ∃ ys, midFilter (xs ++ [m]) = ys ++ [m] := by
  intro xs
  induction xs with
  | nil => exact ⟨[], rfl⟩
  | cons x xs ih =>
    cases xs with
    | nil =>
      by_cases hx : x.isEmpty
      · exact ⟨[], by simp [midFilter, hx]⟩
      · exact ⟨[x], by simp [midFilter, hx]⟩
    | cons y ys =>
      obtain ⟨zs, hzs⟩ := ih
      rw [List.cons_append] at hzs
      by_cases hx : x.isEmpty
      · exact ⟨zs, by simpa [midFilter, hx, List.cons_append] using hzs⟩
      · exact ⟨x :: zs, by simp [midFilter, hx, hzs, List.cons_append]⟩

theorem filterMiddle_ends (m : List Char) (xs : List (List Char)) :
    ∃ ys, filterMiddle (xs ++ [m]) = ys ++ [m] := by
  cases xs with
  | nil => exact ⟨[], rfl⟩
  | cons a rest =>
    obtain ⟨zs, hzs⟩ := midFilter_ends m rest
    exact ⟨a :: zs, by simp [filterMiddle, hzs]⟩

theorem resolve_foldl_maas (acc : List (List Char)) (ys : List (List Char)) :
    (ys ++ [maasSeg]).foldl resolveStep acc =
      (ys.foldl resolveStep acc) ++ [maasSeg] := by
  rw [List.foldl_append]
  show resolveStep (ys.foldl resolveStep acc) maasSeg = _
  rw [resolveStep, if_neg (by decide), if_neg (by decide)]

theorem joinWith_ends (sep m : List Char) :
    ∀ R : List (List Char), ∃ pre, joinWith sep (R ++ [m]) = pre ++ m := by
  intro R
  induction R with
  | nil => exact ⟨[], rfl⟩
  | cons a as ih =>
    cases as with
    | nil => exact ⟨a ++ sep, by simp [joinWith]⟩
    | cons b bs =>
      obtain ⟨pre, hpre⟩ := ih
      rw [List.cons_append] at hpre
      refine ⟨a ++ sep ++ pre, ?_⟩
      show joinWith sep (a :: (b :: (bs ++ [m]))) = _
      rw [joinWith, hpre]
      simp [List.append_assoc]

theorem urljoinResolvedPath_ends (bpath : List Char) :
    ∃ pre, urljoinResolvedPath bpath = pre ++ maasSeg := by
  rw [urljoinResolvedPath]
  obtain ⟨ys, hys⟩ := filterMiddle_ends maasSeg
    (if (splitChar '/' bpath).getLast? = some [] then splitChar '/' bpath
     else (splitChar '/' bpath).dropLast)
  rw [hys, resolve_foldl_maas]
  exact joinWith_ends ['/'] maasSeg _

theorem maas_append_isEmpty (pre : List Char) : (pre ++ maasSeg).isEmpty = false := by
  cases pre <;> rfl

theorem ends_cons (c : Char) (l : List Char) (h : ∃ p, l = p ++ maasSeg) :
    ∃ p, c :: l = p ++ maasSeg := by
  obtain ⟨p, rfl⟩ := h
  exact ⟨c :: p, rfl⟩

theorem ends_append_left (x l : List Char) (h : ∃ p, l = p ++ maasSeg) :
    ∃ p, x ++ l = p ++ maasSeg := by
  obtain ⟨p, rfl⟩ := h
  exact ⟨x ++ p, by rw [List.append_assoc]⟩

theorem ends_ite (c : Prop) [Decidable c] (a b : List Char)
    (ha : ∃ p, a = p ++ maasSeg) (hb : ∃ p, b = p ++ maasSeg) :
    ∃ p, (if c then a else b) = p ++ maasSeg := by
  split
  · exact ha
  · exact hb

theorem urlunsplitUrl_ends (scheme netloc : String) (joined : List Char)
    (h : ∃ p, joined = p ++ maasSeg) :
    ∃ p, urlunsplitUrl scheme netloc joined = p ++ maasSeg := by
  obtain ⟨p, rfl⟩ := h
  simp only [urlunsplitUrl, maas_append_isEmpty, Bool.false_eq_true, if_false]
  refine ends_ite _ _ _
    (ends_append_left _ _ (ends_cons ':' _ (ends_ite _ _ _
      (ends_cons '/' _ (ends_cons '/' _ (ends_append_left _ _ (ends_ite _ _ _
        (ends_cons '/' _ ⟨p, rfl⟩) ⟨p, rfl⟩))))
      ⟨p, rfl⟩)))
    (ends_ite _ _ _
      (ends_cons '/' _ (ends_cons '/' _ (ends_append_left _ _ (ends_ite _ _ _
        (ends_cons '/' _ ⟨p, rfl⟩) ⟨p, rfl⟩))))
      ⟨p, rfl⟩)

theorem urljoinFromParts_ends (scheme netloc path : String) :
    ∃ pre : String, urljoinFromParts scheme netloc path = pre ++ "MAAS" := by
  rw [urljoinFromParts]
  split
  · exact ⟨"", rfl⟩
  · obtain ⟨p, hp⟩ := urlunsplitUrl_ends scheme netloc _
      (urljoinResolvedPath_ends path.data)
    refine ⟨String.mk p, ?_⟩
    rw [hp]
    rfl

theorem urljoinMAAS_ok_ends (base v : String) (h : urljoinMAAS base = .ok v) :
    ∃ pre : String, v = pre ++ "MAAS" := by
  rw [urljoinMAAS] at h
  cases hp : urlparse3 base with
  | error e =>
    rw [hp] at h
    simp at h
  | ok p =>
    rw [hp] at h
    obtain rfl : urljoinFromParts p.1 p.2.1 p.2.2 = v := by simpa using h
    exact urljoinFromParts_ends _ _ _

/-- Sanity checks at the divergence-prone inputs: `;params` are split off
the final path segment before the `MAAS`-containment test (so a
params-only `MAAS` still triggers the rewrite, while `MAAS` in the proper
path does not), and an unbalanced bracket in the netloc raises out of the
validator instead of returning. -/
theorem urlparse3_params_split :
    urlparse3 "http://h/x;MAAS" = .ok ("http", "h", "/x") ∧
    urlparse3 "http://h/MAAS;x" = .ok ("http", "h", "/MAAS") ∧
    urlparse3 "http://[x" = .error () := ⟨rfl, rfl, rfl⟩

theorem maas_endpoint_params_rewrite :
    maasHasCorrectEndpoint (fun _ => false) (fun _ => false) "http://h/x;MAAS" =
      .ok ⟨true, none, "http://h/MAAS"⟩ ∧
    maasHasCorrectEndpoint (fun _ => false) (fun _ => false) "http://h/MAAS;x" =
      .ok ⟨true, none, "http://h/MAAS;x"⟩ ∧
    maasHasCorrectEndpoint (fun _ => false) (fun _ => false) "http://[x" =
      .error () := ⟨rfl, rfl, rfl⟩

/-- C1 amended: whenever the endpoint validator returns (rather than
raising the bracket `ValueError`) with success, it either has rewritten the
stored value to a URL ending in `MAAS`, or — exactly when the input starts
with `http` and its parsed URL path (after the `;params` split) already
contains `MAAS` — it leaves the stored value unchanged, canonical or not;
re-running the validator on the already-canonical `http://h:5240/MAAS`
returns success and leaves the stored value unchanged. -/
theorem maas_endpoint_normalization_amended :
    (∀ (hostFn ipFn : String → Bool) (endpoint : String) (r : EndpointResult),
        maasHasCorrectEndpoint hostFn ipFn endpoint = .ok r →
        r.ok = true →
        (r.value = endpoint ∧
         strStartsWith endpoint "http" = true ∧
         ∃ u, urlparse3 endpoint = .ok u ∧ strContains u.2.2 "MAAS" = true) ∨
        (∃ pre : String, r.value = pre ++ "MAAS")) ∧
    (∀ hostFn ipFn : String → Bool,
      maasHasCorrectEndpoint hostFn ipFn "http://h:5240/MAAS" =
        .ok ⟨true, none, "http://h:5240/MAAS"⟩) := by
  constructor
  · intro hostFn ipFn endpoint r hr hok
    by_cases hh : strStartsWith endpoint "http" = true
    · cases hp : urlparse3 endpoint with
      | error e =>
        rw [show maasHasCorrectEndpoint hostFn ipFn endpoint = .error e from by
          simp [maasHasCorrectEndpoint, hh, hp]] at hr
        simp at hr
      | ok u =>
        by_cases hn : u.2.1 = ""
        · rw [show maasHasCorrectEndpoint hostFn ipFn endpoint =
              .ok ⟨false, some maasEndpointWebMsg, endpoint⟩ from by
            simp [maasHasCorrectEndpoint, hh, hp, hn]] at hr
          obtain rfl := Except.ok.inj hr
          simp at hok
        · by_cases hc : strContains u.2.2 "MAAS" = true
          · rw [show maasHasCorrectEndpoint hostFn ipFn endpoint =
                .ok ⟨true, none, endpoint⟩ from by
              simp [maasHasCorrectEndpoint, hh, hp, hn, hc]] at hr
            obtain rfl := Except.ok.inj hr
            exact Or.inl ⟨rfl, hh, u, rfl, hc⟩
          · rw [show maasHasCorrectEndpoint hostFn ipFn endpoint =
                .ok ⟨true, none, urljoinFromParts u.1 u.2.1 u.2.2⟩ from by
              simp [maasHasCorrectEndpoint, hh, hp, hn, hc]] at hr
            obtain rfl := Except.ok.inj hr
            exact Or.inr (urljoinFromParts_ends _ _ _)
    · rw [Bool.not_eq_true] at hh
      by_cases hhost : hostFn endpoint = true
      · cases hj : urljoinMAAS ("http://" ++ endpoint ++ ":5240") with
        | error e =>
          rw [show maasHasCorrectEndpoint hostFn ipFn endpoint = .error e from by
            simp [maasHasCorrectEndpoint, hh, hhost, hj]] at hr
          simp at hr
        | ok v =>
          rw [show maasHasCorrectEndpoint hostFn ipFn endpoint =
              .ok ⟨true, none, v⟩ from by
            simp [maasHasCorrectEndpoint, hh, hhost, hj]] at hr
          obtain rfl := Except.ok.inj hr
          exact Or.inr (urljoinMAAS_ok_ends _ v hj)
      · by_cases hip : ipFn (maasIpPort endpoint).1 = true
        · cases hj : urljoinMAAS
              ("http://" ++ (maasIpPort endpoint).1 ++ ":" ++ (maasIpPort endpoint).2) with
          | error e =>
            rw [show maasHasCorrectEndpoint hostFn ipFn endpoint =
                .ok ⟨false, some maasEndpointFormatMsg, endpoint⟩ from by
              simp [maasHasCorrectEndpoint, hh, hhost, hip, hj]] at hr
            obtain rfl := Except.ok.inj hr
            simp at hok
          | ok v =>
            rw [show maasHasCorrectEndpoint hostFn ipFn endpoint =
                .ok ⟨true, none, v⟩ from by
              simp [maasHasCorrectEndpoint, hh, hhost, hip, hj]] at hr
            obtain rfl := Except.ok.inj hr
            exact Or.inr (urljoinMAAS_ok_ends _ v hj)
        · rw [show maasHasCorrectEndpoint hostFn ipFn endpoint =
              .ok ⟨false, some maasEndpointFormatMsg, endpoint⟩ from by
            simp [maasHasCorrectEndpoint, hh, hhost, hip]] at hr
          obtain rfl := Except.ok.inj hr
          simp at hok
  · intro hostFn ipFn
    rfl

theorem maas_endpoint_normalization_amended_witness :
    maasHasCorrectEndpoint (fun _ => false) (fun _ => false) "http://h:5240" =
      .ok ⟨true, none, "http://h:5240/MAAS"⟩ ∧
    (∃ pre : String,
      (⟨true, none, "http://h:5240/MAAS"⟩ : EndpointResult).value = pre ++ "MAAS") ∧
    maasHasCorrectEndpoint (fun _ => false) (fun _ => false) "http://h:5240/MAAS" =
      .ok ⟨true, none, "http://h:5240/MAAS"⟩ := by
  refine ⟨rfl, ?_, maas_endpoint_normalization_amended.2 _ _⟩
  have h := maas_endpoint_normalization_amended.1 (fun _ => false) (fun _ => false)
    "http://h:5240" ⟨true, none, "http://h:5240/MAAS"⟩ rfl rfl
  rcases h with ⟨hv, _, _⟩ | h
  · exact absurd hv (by decide)
  · exact h

theorem canonical_ends_slash_maas (s : String) (h : maasCanonicalForm s) :
    endsWithSlashMAAS s = true := by
  obtain ⟨host, port, rfl⟩ := h
  rw [endsWithSlashMAAS]
  simp only [String.data_append, List.reverse_append, List.append_assoc]
  exact isPrefixOf_append_right _ _ _ (by decide)

/-- C1 counterexample: on the input `http://h:5240/xMAASy/z` the validator
succeeds (the parsed URL path contains `MAAS`) yet performs no rewrite, and
the stored value is not of the canonical `http://host:port/MAAS` form — so
it is not the case that every success path rewrites the field to canonical
form. -/
theorem maas_endpoint_claim_counterexample :
    maasHasCorrectEndpoint (fun _ => false) (fun _ => false) "http://h:5240/xMAASy/z" =
      .ok ⟨true, none, "http://h:5240/xMAASy/z"⟩ ∧
    ¬ maasCanonicalForm "http://h:5240/xMAASy/z" :=
  ⟨rfl, fun hc => absurd (canonical_ends_slash_maas _ hc) (by decide)⟩

/-! ### C2: move-to-front ordering of `get_networks` / `get_storage_pools` -/

theorem updFst_eq {α : Type} (p : String × α) (k t : String) (v : α) :
    ((if p.1 = k then (k, v) else p).1 = t) ↔ p.1 = t := by
  split
  · next h => simp [← h]
  · exact Iff.rfl

theorem odMoveToFront_none {α : Type} (od : List (String × α)) (t : String)
    (h : od.find? (fun p => p.1 = t) = none) : odMoveToFront od t = od := by
  simp [odMoveToFront, h]

theorem odMoveToFront_some {α : Type} (od : List (String × α)) (t : String)
    (e : String × α) (h : od.find? (fun p => p.1 = t) = some e) :
    odMoveToFront od t = e :: od.filter (fun p => !(p.1 = t)) := by
  simp [odMoveToFront, h]

theorem find?_map_upd {α : Type} (od : List (String × α)) (k t : String) (v : α) :
    (od.map (fun p => if p.1 = k then (k, v) else p)).find? (fun p => p.1 = t) =
      (od.find? (fun p => p.1 = t)).map (fun p => if p.1 = k then (k, v) else p) := by
  induction od with
  | nil => rfl
  | cons q od ih =>
    by_cases hq : q.1 = t
    · have e1 : ((if q.1 = k then (k, v) else q).1 = t) := (updFst_eq q k t v).mpr hq
      have d1 : (decide ((if q.1 = k then (k, v) else q).1 = t)) = true := by
        simp only [decide_eq_true_eq]
        exact e1
      have d2 : (decide (q.1 = t)) = true := by
        simp only [decide_eq_true_eq]
        exact hq
      simp only [List.map_cons, List.find?_cons, d1, d2, Option.map_some']
    · have e1 : ¬ ((if q.1 = k then (k, v) else q).1 = t) :=
        fun h => hq ((updFst_eq q k t v).mp h)
      have d1 : (decide ((if q.1 = k then (k, v) else q).1 = t)) = false := by
        simp only [decide_eq_false_iff_not]
        exact e1
      have d2 : (decide (q.1 = t)) = false := by
        simp only [decide_eq_false_iff_not]
        exact hq
      simp only [List.map_cons, List.find?_cons, d1, d2]
      exact ih

theorem filter_map_upd {α : Type} (od : List (String × α)) (k t : String) (v : α) :
    (od.map (fun p => if p.1 = k then (k, v) else p)).filter (fun p => !(p.1 = t)) =
      (od.filter (fun p => !(p.1 = t))).map (fun p => if p.1 = k then (k, v) else p) := by
  induction od with
  | nil => rfl
  | cons q od ih =>
    by_cases hq : q.1 = t
    · have e1 : ((if q.1 = k then (k, v) else q).1 = t) := (updFst_eq q k t v).mpr hq
      have d1 : (!decide ((if q.1 = k then (k, v) else q).1 = t)) = false := by
        simp [e1]
      have d2 : (!decide (q.1 = t)) = false := by simp [hq]
      simp only [List.map_cons, List.filter_cons, d1, d2, Bool.false_eq_true, if_false]
      exact ih
    · have e1 : ¬ ((if q.1 = k then (k, v) else q).1 = t) :=
        fun h => hq ((updFst_eq q k t v).mp h)
      have d1 : (!decide ((if q.1 = k then (k, v) else q).1 = t)) = true := by
        simp [e1]
      have d2 : (!decide (q.1 = t)) = true := by simp [hq]
      simp only [List.map_cons, List.filter_cons, d1, d2, if_true]
      rw [ih]

theorem map_updT_filtered {α : Type} (od : List (String × α)) (t : String) (v : α) :
    (od.filter (fun p => !(p.1 = t))).map (fun p => if p.1 = t then (t, v) else p) =
      od.filter (fun p => !(p.1 = t)) := by
  induction od with
  | nil => rfl
  | cons q od ih =>
    by_cases hq : q.1 = t
    · simp [List.filter_cons, hq, ih]
    · simp [List.filter_cons, hq, ih]

theorem filter_tt_idem {α : Type} (od : List (String × α)) (t : String) :
    (od.filter (fun p => !(p.1 = t))).filter (fun p => !(p.1 = t)) =
      od.filter (fun p => !(p.1 = t)) := by
  rw [List.filter_filter]
  congr 1
  funext p
  exact Bool.and_self _

theorem insert_find?_none {α : Type} (od : List (String × α)) (k : String) (v : α)
    (t : String) (hkt : k ≠ t) (h : od.find? (fun p => p.1 = t) = none) :
    (odInsert od k v).find? (fun p => p.1 = t) = none := by
  rw [List.find?_eq_none] at h ⊢
  intro x hx
  simp only [odInsert] at hx
  split at hx
  · obtain ⟨p, hp, rfl⟩ := List.mem_map.mp hx
    have hpt := h p hp
    simp only [decide_eq_true_eq] at hpt ⊢
    rw [updFst_eq]
    exact hpt
  · rcases List.mem_append.mp hx with hx | hx
    · exact h x hx
    · simp only [List.mem_singleton] at hx
      subst hx
      simp [hkt]

theorem any_filter_of_ne {α : Type} (od : List (String × α)) (k t : String)
    (hkt : k ≠ t) (ha : od.any (fun p => p.1 = k) = true) :
    (od.filter (fun p => !(p.1 = t))).any (fun p => p.1 = k) = true := by
  rw [List.any_eq_true] at ha ⊢
  obtain ⟨p, hp, hpk⟩ := ha
  refine ⟨p, List.mem_filter.mpr ⟨hp, ?_⟩, hpk⟩
  simp only [decide_eq_true_eq] at hpk
  simp [hpk, hkt]

theorem any_filter_of_none {α : Type} (od : List (String × α)) (k : String)
    (q : (String × α) → Bool) (ha : od.any (fun p => p.1 = k) = false) :
    (od.filter q).any (fun p => p.1 = k) = false := by
  rw [List.any_eq_false] at ha ⊢
  intro p hp
  exact ha p (List.mem_filter.mp hp).1

theorem insert_mtf_comm {α : Type} (od : List (String × α)) (k : String) (v : α)
    (t : String) (hkt : k ≠ t) :
    odInsert (odMoveToFront od t) k v = odMoveToFront (odInsert od k v) t := by
  cases hf : od.find? (fun p => p.1 = t) with
  | none =>
    rw [odMoveToFront_none od t hf,
        odMoveToFront_none _ t (insert_find?_none od k v t hkt hf)]
  | some e =>
    have het : e.1 = t := by
      have hh := List.find?_some hf
      simpa using hh
    have hek : (decide (e.1 = k)) = false := by simp [het, Ne.symm hkt]
    rw [odMoveToFront_some od t e hf]
    have hupde : (if e.1 = k then (k, v) else e) = e := by
      rw [if_neg]
      rw [het]
      exact Ne.symm hkt
    by_cases ha : od.any (fun p => p.1 = k) = true
    · have ha' : (e :: od.filter (fun p => !(p.1 = t))).any (fun p => p.1 = k) = true := by
        rw [List.any_cons, any_filter_of_ne od k t hkt ha]
        simp
      rw [odInsert, if_pos ha', odInsert, if_pos ha, List.map_cons, hupde]
      have hfm : (od.map (fun p => if p.1 = k then (k, v) else p)).find?
          (fun p => p.1 = t) = some e := by
        rw [find?_map_upd, hf, Option.map_some', hupde]
      rw [odMoveToFront_some _ t e hfm, filter_map_upd]
    · have haB : od.any (fun p => p.1 = k) = false := by
        cases hb : od.any (fun p => p.1 = k) with
        | true => exact absurd hb ha
        | false => rfl
      have ha' : (e :: od.filter (fun p => !(p.1 = t))).any (fun p => p.1 = k) = false := by
        rw [List.any_cons, hek, any_filter_of_none od k _ haB]
        rfl
      rw [odInsert, if_neg (by simp [ha']), odInsert, if_neg (by simp [haB])]
      have hf2 : (od ++ [(k, v)]).find? (fun p => p.1 = t) = some e := by
        rw [List.find?_append, hf]
        rfl
      rw [odMoveToFront_some _ t e hf2, List.filter_append]
      have hkv : (([(k, v)] : List (String × α)).filter (fun p => !(p.1 = t))) = [(k, v)] := by
        simp [hkt]
      rw [hkv]
      rfl

theorem mtf_insert_self {α : Type} (od : List (String × α)) (k : String) (v : α) :
    odMoveToFront (odInsert (odMoveToFront od k) k v) k =
      odMoveToFront (odInsert od k v) k := by
  cases hf : od.find? (fun p => p.1 = k) with
  | none => rw [odMoveToFront_none od k hf]
  | some e =>
    have hek : e.1 = k := by
      have hh := List.find?_some hf
      simpa using hh
    rw [odMoveToFront_some od k e hf]
    have ha' : (e :: od.filter (fun p => !(p.1 = k))).any (fun p => p.1 = k) = true := by
      rw [List.any_cons]
      simp [hek]
    have haO : od.any (fun p => p.1 = k) = true := by
      rw [List.any_eq_true]
      exact ⟨e, List.mem_of_find?_eq_some hf, by simp [hek]⟩
    rw [odInsert, if_pos ha', odInsert, if_pos haO, List.map_cons]
    have hupd : (if e.1 = k then (k, v) else e) = (k, v) := by rw [if_pos hek]
    rw [hupd, map_updT_filtered]
    have hfL : (((k, v) : String × α) :: od.filter (fun p => !(p.1 = k))).find?
        (fun p => p.1 = k) = some (k, v) := by
      simp [List.find?_cons]
    rw [odMoveToFront_some _ k (k, v) hfL]
    have hflt : (((k, v) : String × α) :: od.filter (fun p => !(p.1 = k))).filter
        (fun p => !(p.1 = k)) = od.filter (fun p => !(p.1 = k)) := by
      rw [List.filter_cons]
      simp [filter_tt_idem od k]
    rw [hflt]
    have hfm : (od.map (fun p => if p.1 = k then (k, v) else p)).find?
        (fun p => p.1 = k) = some (k, v) := by
      rw [find?_map_upd, hf, Option.map_some', hupd]
    rw [odMoveToFront_some _ k (k, v) hfm, filter_map_upd, map_updT_filtered]

theorem mtf_plain_step {α β : Type} (keyOf : β → Option (String × α)) (t : String)
    (od : List (String × α)) (b : β) :
    mtfStep keyOf t (odMoveToFront od t) b = odMoveToFront (plainStep keyOf od b) t := by
  cases hk : keyOf b with
  | none => simp [mtfStep, plainStep, hk]
  | some kv =>
    obtain ⟨k, v⟩ := kv
    simp only [mtfStep, plainStep, hk]
    by_cases hkt : k = t
    · subst hkt
      rw [if_pos rfl]
      exact mtf_insert_self od k v
    · rw [if_neg hkt]
      exact insert_mtf_comm od k v t hkt

theorem mtf_foldl {α β : Type} (keyOf : β → Option (String × α)) (t : String) :
    ∀ (l : List β) (od : List (String × α)),
      l.foldl (mtfStep keyOf t) (odMoveToFront od t) =
        odMoveToFront (l.foldl (plainStep keyOf) od) t := by
  intro l
  induction l with
  | nil => intro od; rfl
  | cons b l ih =>
    intro od
    rw [List.foldl_cons, List.foldl_cons, mtf_plain_step, ih (plainStep keyOf od b)]

theorem plain_foldl_fresh {α β : Type} (keyOf : β → Option (String × α)) :
    ∀ (l : List β) (acc : List (String × α)),
      ((l.filterMap keyOf).map Prod.fst).Nodup →
      (∀ k, k ∈ (l.filterMap keyOf).map Prod.fst →
        acc.any (fun p => p.1 = k) = false) →
      l.foldl (plainStep keyOf) acc = acc ++ l.filterMap keyOf := by
  intro l
  induction l with
  | nil => intro acc _ _; simp
  | cons b l ih =>
    intro acc hnd hfresh
    cases hk : keyOf b with
    | none =>
      rw [List.filterMap_cons_none hk] at hnd hfresh ⊢
      rw [List.foldl_cons]
      have hstep : plainStep keyOf acc b = acc := by simp [plainStep, hk]
      rw [hstep]
      exact ih acc hnd hfresh
    | some kv =>
      rw [List.filterMap_cons_some hk] at hnd hfresh ⊢
      rw [List.foldl_cons]
      have hfreshk : acc.any (fun p => p.1 = kv.1) = false :=
        hfresh kv.1 (by simp)
      have hstep : plainStep keyOf acc b = acc ++ [kv] := by
        simp only [plainStep, hk, odInsert]
        rw [if_neg (by simp [hfreshk])]
      rw [hstep]
      simp only [List.map_cons, List.nodup_cons] at hnd
      rw [ih (acc ++ [kv]) hnd.2 ?fresh]
      · rw [List.append_assoc]
        rfl
      case fresh =>
        intro k hkmem
        have hkne : k ≠ kv.1 := fun h => hnd.1 (h ▸ hkmem)
        rw [List.any_append, hfresh k (List.mem_cons_of_mem _ hkmem)]
        simp [Ne.symm hkne]

theorem getNetworks_eq_mtf (infos : List NetInfo) :
    getNetworksModel infos =
      odMoveToFront (infos.foldl (plainStep netKeyOf) []) "lxdbr0" := by
  rw [getNetworksModel]
  conv_lhs =>
    rw [show ([] : List (String × NetInfo)) = odMoveToFront [] "lxdbr0" from rfl]
  rw [mtf_foldl]

theorem filterMap_netKeyOf (infos : List NetInfo) :
    infos.filterMap netKeyOf = bridgeEntries infos := by
  induction infos with
  | nil => rfl
  | cons n infos ih =>
    by_cases hb : n.type = "bridge"
    · simp [List.filterMap_cons, netKeyOf, hb, bridgeEntries, List.filter_cons, ih]
    · simp [List.filterMap_cons, netKeyOf, hb, bridgeEntries, List.filter_cons, ih]

theorem filterMap_poolKeyOf {α : Type} (queryPool : String → α) (pools : List String) :
    pools.filterMap (fun p => some (pathStem p, queryPool p)) =
      poolEntries queryPool pools := by
  induction pools with
  | nil => rfl
  | cons p pools ih => simp [List.filterMap_cons, poolEntries, ih]

/-- C2: `get_networks` returns the ordered name-keyed mapping of exactly the
bridge-typed networks with `lxdbr0` (when present) moved to the front and
every other entry in original relative order, and `get_storage_pools` does
the analogous move-to-front of the pool named `default` — a move-to-front,
not a re-sort (stated for query results with pairwise-distinct names, as a
name-keyed mapping presumes). -/
theorem lxd_move_to_front_ordering :
    (∀ infos : List NetInfo,
      ((bridgeEntries infos).map Prod.fst).Nodup →
      getNetworksModel infos = odMoveToFront (bridgeEntries infos) "lxdbr0") ∧
    (∀ (α : Type) (queryPool : String → α) (pools : List String),
      ((poolEntries queryPool pools).map Prod.fst).Nodup →
      getStoragePoolsModel queryPool pools =
        odMoveToFront (poolEntries queryPool pools) "default") := by
  constructor
  · intro infos hnd
    rw [getNetworks_eq_mtf]
    congr 1
    rw [plain_foldl_fresh netKeyOf infos []
        (by rwa [filterMap_netKeyOf]) (fun k _ => rfl),
      List.nil_append, filterMap_netKeyOf]
  · intro α queryPool pools hnd
    rw [getStoragePoolsModel]
    conv_lhs =>
      rw [show ([] : List (String × α)) = odMoveToFront [] "default" from rfl]
    rw [mtf_foldl]
    congr 1
    rw [plain_foldl_fresh _ pools []
        (by rwa [filterMap_poolKeyOf]) (fun k _ => rfl),
      List.nil_append, filterMap_poolKeyOf]

theorem lxd_move_to_front_ordering_witness :
    (((bridgeEntries [⟨"br1", "bridge"⟩, ⟨"eth0", "physical"⟩, ⟨"lxdbr0", "bridge"⟩,
        ⟨"br2", "bridge"⟩]).map Prod.fst).Nodup ∧
      getNetworksModel [⟨"br1", "bridge"⟩, ⟨"eth0", "physical"⟩, ⟨"lxdbr0", "bridge"⟩,
        ⟨"br2", "bridge"⟩] =
      odMoveToFront (bridgeEntries [⟨"br1", "bridge"⟩, ⟨"eth0", "physical"⟩,
        ⟨"lxdbr0", "bridge"⟩, ⟨"br2", "bridge"⟩]) "lxdbr0") ∧
    (((poolEntries (fun p => p) ["/1.0/storage-pools/zfs", "/1.0/storage-pools/default"]).map
        Prod.fst).Nodup ∧
      getStoragePoolsModel (fun p => p)
        ["/1.0/storage-pools/zfs", "/1.0/storage-pools/default"] =
      odMoveToFront
        (poolEntries (fun p => p) ["/1.0/storage-pools/zfs", "/1.0/storage-pools/default"])
        "default") :=
  ⟨⟨by decide, lxd_move_to_front_ordering.1 _ (by decide)⟩,
   ⟨by decide, lxd_move_to_front_ordering.2 String (fun p => p) _ (by decide)⟩⟩
